import Mathlib

/-!
Verification of the task-tracking backend in
`src/mern-todo-app/backend/routes/tasks.js`, a set of four Express route
handlers over a Mongoose `Task` model (schema in the repository ReadMe,
section 1.6).

The embedding models the MongoDB collection as a list of task records plus
a fresh-identifier counter; MongoDB ObjectIds become natural numbers, and a
request path parameter is either a well-formed identifier or a string that
fails ObjectId casting (Mongoose raises a CastError on the latter, which
the handlers catch and turn into the generic 500 response).  The four
handlers are translated directly from the source, one definition each.
-/

namespace TodoApp

/-- A stored task record, as defined by the Mongoose TaskSchema in the
repository: a store-assigned identifier, a required title string and a
completed flag defaulting to false. -/
structure Task where
  id : Nat
  title : String
  completed : Bool
deriving Repr, DecidableEq

/-- The task store: the MongoDB collection of task records together with
the next fresh identifier the store will assign. -/
structure Store where
  tasks : List Task
  nextId : Nat
deriving Repr, DecidableEq

/-- The JSON body of a request, as read by the route handlers: an optional
title field, an optional completed field, and any further fields, which no
handler ever reads. -/
structure ReqBody where
  title : Option String := none
  completed : Option Bool := none
  extra : List (String × String) := []
deriving Repr, DecidableEq

/-- A path parameter `:id`: either a well-formed identifier or a string
that fails ObjectId casting. -/
inductive ParamId where
  | valid (n : Nat)
  | malformed
deriving Repr, DecidableEq

/-- JSON response bodies produced by the four handlers. -/
inductive RespBody where
  | taskJson (t : Task)
  | nullJson
  | listJson (ts : List Task)
  | errorJson (message : String)
  | empty
deriving Repr, DecidableEq

/-- An HTTP response: a status code and a body. -/
structure Response where
  status : Nat
  body : RespBody
deriving Repr, DecidableEq

/-- The message of the generic error response in tasks.js. -/
def serverErrorMsg : String := "Server Error"

/-- The response every catch branch of tasks.js produces: status 500 with
the fixed message. -/
def serverError : Response := { status := 500, body := .errorJson serverErrorMsg }

/-- Mongoose validation and save for `new Task({ title }); save()`: the
schema marks title as required, and for string paths the required
validator rejects both a missing value and the empty string, so save
rejects (none) exactly then; otherwise a fresh identifier is assigned and
completed defaults to false, per the schema. -/
def Store.save (s : Store) (title : Option String) : Option (Task × Store) :=
  match title with
  | none => none
  | some t =>
      if t = "" then none
      else
        let task : Task := { id := s.nextId, title := t, completed := false }
        some (task, { tasks := s.tasks ++ [task], nextId := s.nextId + 1 })

/-- Apply the update document `{ completed }` to a task record: Mongoose
strips an undefined field from the update, so a body without completed
leaves the document unchanged. -/
def applyCompleted (c : Option Bool) (t : Task) : Task :=
  match c with
  | none => t
  | some b => { t with completed := b }

/-- Rewrite the first task matching the identifier (MongoDB updates the
single document whose _id matches). -/
def updateFirst (ts : List Task) (i : Nat) (f : Task → Task) : List Task :=
  match ts with
  | [] => []
  | t :: rest => if t.id = i then f t :: rest else t :: updateFirst rest i f

/-- Remove the first task matching the identifier (MongoDB deletes the
single document whose _id matches). -/
def removeFirst (ts : List Task) (i : Nat) : List Task :=
  match ts with
  | [] => []
  | t :: rest => if t.id = i then rest else t :: removeFirst rest i

/-- Semantics of `Task.findByIdAndUpdate(id, { completed }, { new: true })`
on a well-formed identifier: returns the updated document, or none (which
serializes as JSON null) when no document matches, in which case the store
is unchanged. -/
def Store.findByIdAndUpdate (s : Store) (i : Nat) (c : Option Bool) :
    Option Task × Store :=
  match s.tasks.find? (fun t => t.id = i) with
  | none => (none, s)
  | some t =>
      (some (applyCompleted c t),
       { s with tasks := updateFirst s.tasks i (applyCompleted c) })

/-- Semantics of `Task.findByIdAndDelete(id)` on a well-formed identifier:
removes the matching document if there is one. -/
def Store.findByIdAndDelete (s : Store) (i : Nat) : Store :=
  { s with tasks := removeFirst s.tasks i }

/-- Handler of POST /api/tasks: reads title from the body, saves a new
task; 201 with the saved task on success, 500 on a save failure. -/
def postTasks (s : Store) (b : ReqBody) : Response × Store :=
  match Store.save s b.title with
  | none => (serverError, s)
  | some (task, s2) => ({ status := 201, body := .taskJson task }, s2)

/-- Handler of GET /api/tasks: 200 with every stored task. -/
def getTasks (s : Store) : Response × Store :=
  ({ status := 200, body := .listJson s.tasks }, s)

/-- Handler of PUT /api/tasks/:id: reads completed from the body, calls
findByIdAndUpdate; 200 with the result (the updated document, or JSON null
when nothing matched), and 500 only when the identifier fails casting. -/
def putTask (s : Store) (p : ParamId) (b : ReqBody) : Response × Store :=
  match p with
  | .malformed => (serverError, s)
  | .valid i =>
      match Store.findByIdAndUpdate s i b.completed with
      | (some t, s2) => ({ status := 200, body := .taskJson t }, s2)
      | (none, s2) => ({ status := 200, body := .nullJson }, s2)

/-- Handler of DELETE /api/tasks/:id: calls findByIdAndDelete and answers
204 with an empty body whether or not a document matched; 500 only when
the identifier fails casting. -/
def deleteTask (s : Store) (p : ParamId) : Response × Store :=
  match p with
  | .malformed => (serverError, s)
  | .valid i => ({ status := 204, body := .empty }, Store.findByIdAndDelete s i)

/-- Store invariant: identifiers are pairwise distinct, every identifier
is below the fresh counter, and every stored title is non-empty (the
completed field is a boolean by construction). -/
def Store.WF (s : Store) : Prop :=
  (s.tasks.map Task.id).Nodup ∧ ∀ t ∈ s.tasks, t.id < s.nextId ∧ t.title ≠ ""

/-- A concrete initial store for witnesses. -/
def emptyStore : Store := { tasks := [], nextId := 0 }

/-- A concrete title for witnesses. -/
def milkTitle : String := "Buy milk"

/-- A concrete one-task store for witnesses. -/
def oneTaskStore : Store :=
  { tasks := [{ id := 0, title := milkTitle, completed := false }], nextId := 1 }

theorem emptyStore_wf : emptyStore.WF := by
  constructor
  · simp [emptyStore]
  · simp [emptyStore]

theorem oneTaskStore_wf : oneTaskStore.WF := by
  constructor
  · simp [oneTaskStore]
  · simp [oneTaskStore, milkTitle]

theorem applyCompleted_id (c : Option Bool) (t : Task) :
    (applyCompleted c t).id = t.id := by
  cases c <;> rfl

theorem applyCompleted_title (c : Option Bool) (t : Task) :
    (applyCompleted c t).title = t.title := by
  cases c <;> rfl

theorem updateFirst_pairs (ts : List Task) (i : Nat) (c : Option Bool) :
    (updateFirst ts i (applyCompleted c)).map (fun t => (t.id, t.title))
      = ts.map (fun t => (t.id, t.title)) := by
  induction ts with
  | nil => rfl
  | cons t rest ih =>
      by_cases h : t.id = i
      · simp [updateFirst, h, applyCompleted_id, applyCompleted_title]
      · simp [updateFirst, h, ih]

theorem updateFirst_map_id (ts : List Task) (i : Nat) (c : Option Bool) :
    (updateFirst ts i (applyCompleted c)).map Task.id = ts.map Task.id := by
  induction ts with
  | nil => rfl
  | cons t rest ih =>
      by_cases h : t.id = i
      · simp [updateFirst, h, applyCompleted_id]
      · simp [updateFirst, h, ih]

theorem mem_updateFirst_pairs (ts : List Task) (i : Nat) (c : Option Bool)
    (u : Task) (hu : u ∈ updateFirst ts i (applyCompleted c)) :
    ∃ v ∈ ts, v.id = u.id ∧ v.title = u.title := by
  have h1 : (u.id, u.title) ∈ ts.map (fun t => (t.id, t.title)) := by
    rw [← updateFirst_pairs ts i c]
    exact List.mem_map_of_mem _ hu
  rcases List.mem_map.mp h1 with ⟨v, hv, hpair⟩
  rcases Prod.mk.injEq .. ▸ hpair with ⟨h2, h3⟩
  exact ⟨v, hv, h2, h3⟩

theorem updateFirst_completed_of_nodup (ts : List Task) (i : Nat) (c : Bool)
    (hnd : (ts.map Task.id).Nodup) :
    ∀ u ∈ updateFirst ts i (applyCompleted (some c)), u.id = i → u.completed = c := by
  induction ts with
  | nil => intro u hu; simp [updateFirst] at hu
  | cons t rest ih =>
      rw [List.map_cons, List.nodup_cons] at hnd
      intro u hu hid
      by_cases h : t.id = i
      · simp only [updateFirst, if_pos h, List.mem_cons] at hu
        rcases hu with rfl | hu2
        · simp [applyCompleted]
        · exfalso
          have hm : u.id ∈ rest.map Task.id := List.mem_map_of_mem Task.id hu2
          rw [hid, ← h] at hm
          exact hnd.1 hm
      · simp only [updateFirst, if_neg h, List.mem_cons] at hu
        rcases hu with rfl | hu2
        · exact absurd hid h
        · exact ih hnd.2 u hu2 hid

theorem find?_updateFirst (ts : List Task) (i : Nat) (c : Option Bool) :
    (updateFirst ts i (applyCompleted c)).find? (fun t => t.id = i)
      = (ts.find? (fun t => t.id = i)).map (applyCompleted c) := by
  induction ts with
  | nil => rfl
  | cons t rest ih =>
      by_cases h : t.id = i
      · have h2 : (applyCompleted c t).id = i := by rw [applyCompleted_id, h]
        simp [updateFirst, h, List.find?_cons_of_pos, h2]
      · simp [updateFirst, h, List.find?_cons_of_neg, ih]

theorem updateFirst_idem (ts : List Task) (i : Nat) (b : Bool) :
    updateFirst (updateFirst ts i (applyCompleted (some b))) i
        (applyCompleted (some b))
      = updateFirst ts i (applyCompleted (some b)) := by
  induction ts with
  | nil => rfl
  | cons t rest ih =>
      by_cases h : t.id = i
      · have h2 : (applyCompleted (some b) t).id = i := by rw [applyCompleted_id, h]
        simp [updateFirst, h, h2, applyCompleted]
      · simp [updateFirst, h, ih]

theorem removeFirst_sublist (ts : List Task) (i : Nat) :
    (removeFirst ts i).Sublist ts := by
  induction ts with
  | nil => simp [removeFirst]
  | cons t rest ih =>
      by_cases h : t.id = i
      · simp only [removeFirst, if_pos h]
        exact List.sublist_cons_self t rest
      · simp only [removeFirst, if_neg h]
        exact List.Sublist.cons₂ t ih

theorem removeFirst_not_mem (ts : List Task) (i : Nat)
    (hnd : (ts.map Task.id).Nodup) :
    ∀ u ∈ removeFirst ts i, u.id ≠ i := by
  induction ts with
  | nil => intro u hu; simp [removeFirst] at hu
  | cons t rest ih =>
      rw [List.map_cons, List.nodup_cons] at hnd
      intro u hu
      by_cases h : t.id = i
      · simp only [removeFirst, if_pos h] at hu
        intro hui
        have hm : u.id ∈ rest.map Task.id := List.mem_map_of_mem Task.id hu
        rw [hui, ← h] at hm
        exact hnd.1 hm
      · simp only [removeFirst, if_neg h, List.mem_cons] at hu
        rcases hu with rfl | hu
        · exact h
        · exact ih hnd.2 u hu

theorem removeFirst_of_no_match (ts : List Task) (i : Nat)
    (h : ∀ t ∈ ts, t.id ≠ i) : removeFirst ts i = ts := by
  induction ts with
  | nil => rfl
  | cons t rest ih =>
      have ht := h t (List.mem_cons_self t rest)
      simp only [removeFirst, if_neg ht]
      rw [ih (fun u hu => h u (List.mem_cons_of_mem t hu))]

theorem removeFirst_append_no_match (l1 l2 : List Task) (i : Nat)
    (h : ∀ t ∈ l1, t.id ≠ i) :
    removeFirst (l1 ++ l2) i = l1 ++ removeFirst l2 i := by
  induction l1 with
  | nil => rfl
  | cons t rest ih =>
      have ht := h t (List.mem_cons_self t rest)
      simp only [List.cons_append, removeFirst, if_neg ht]
      show t :: removeFirst (rest ++ l2) i = t :: (rest ++ removeFirst l2 i)
      rw [ih (fun u hu => h u (List.mem_cons_of_mem t hu))]

theorem find?_append_of_none (l1 l2 : List Task) (p : Task → Bool)
    (h : l1.find? p = none) : (l1 ++ l2).find? p = l2.find? p := by
  induction l1 with
  | nil => rfl
  | cons t rest ih =>
      rcases List.find?_eq_none.mp h with hall
      have ht : ¬ p t := hall t (List.mem_cons_self t rest)
      rw [List.cons_append, List.find?_cons_of_neg _ ht]
      exact ih (List.find?_eq_none.mpr fun u hu => hall u (List.mem_cons_of_mem t hu))

theorem find?_of_no_match (s : Store) (i : Nat)
    (h : ∀ t ∈ s.tasks, t.id ≠ i) :
    s.tasks.find? (fun t => t.id = i) = none :=
  List.find?_eq_none.mpr (by intro u hu; simpa using h u hu)

/-- C10: on a well-formed identifier that matches no stored record, Update
answers 200 with a JSON null body, Delete answers 204 with an empty body,
and neither changes the store. -/
theorem c10_notfound_responses (s : Store) (i : Nat) (b : ReqBody)
    (h : ∀ t ∈ s.tasks, t.id ≠ i) :
    putTask s (.valid i) b = ({ status := 200, body := .nullJson }, s) ∧
    deleteTask s (.valid i) = ({ status := 204, body := .empty }, s) := by
  constructor
  · simp [putTask, Store.findByIdAndUpdate, find?_of_no_match s i h]
  · simp [deleteTask, Store.findByIdAndDelete, removeFirst_of_no_match s.tasks i h]

theorem c10_notfound_responses_witness :
    (∀ t ∈ emptyStore.tasks, t.id ≠ 7) ∧
    (putTask emptyStore (.valid 7) { completed := some true }
        = ({ status := 200, body := .nullJson }, emptyStore) ∧
     deleteTask emptyStore (.valid 7)
        = ({ status := 204, body := .empty }, emptyStore)) :=
  ⟨by simp [emptyStore],
   c10_notfound_responses emptyStore 7 { completed := some true }
     (by simp [emptyStore])⟩

/-- C2 counterexample: on the empty store, Update at identifier 0 (which
matches no stored record) answers 200 with a JSON null body, which is not
the generic 500 server-error response any storage failure produces. -/
theorem c2_counterexample :
    (putTask emptyStore (.valid 0) { completed := some true }).1
        = { status := 200, body := .nullJson } ∧
    (putTask emptyStore (.valid 0) { completed := some true }).1 ≠ serverError :=
  ⟨rfl, by decide⟩

/-- C2 amended: on a well-formed identifier that matches no stored record,
Update does not return the generic server-error response: it answers 200
with a JSON null body and leaves the store unchanged; the update route
produces the generic server error only when the identifier fails ObjectId
casting. -/
theorem c2_update_notfound_not_error (s : Store) (i : Nat) (b : ReqBody)
    (h : ∀ t ∈ s.tasks, t.id ≠ i) :
    (putTask s (.valid i) b).1 = { status := 200, body := .nullJson } ∧
    (putTask s (.valid i) b).1 ≠ serverError ∧
    (putTask s (.valid i) b).2 = s ∧
    putTask s .malformed b = (serverError, s) := by
  have h200 : putTask s (.valid i) b = ({ status := 200, body := .nullJson }, s) := by
    simp [putTask, Store.findByIdAndUpdate, find?_of_no_match s i h]
  have hne : ({ status := 200, body := RespBody.nullJson } : Response) ≠ serverError := by
    decide
  refine ⟨by rw [h200], by rw [h200]; exact hne, by rw [h200], rfl⟩

theorem c2_update_notfound_not_error_witness :
    (∀ t ∈ emptyStore.tasks, t.id ≠ 3) ∧
    ((putTask emptyStore (.valid 3) { completed := some false }).1
        = { status := 200, body := .nullJson } ∧
     (putTask emptyStore (.valid 3) { completed := some false }).1 ≠ serverError ∧
     (putTask emptyStore (.valid 3) { completed := some false }).2 = emptyStore ∧
     putTask emptyStore .malformed { completed := some false }
        = (serverError, emptyStore)) :=
  ⟨by simp [emptyStore],
   c2_update_notfound_not_error emptyStore 3 { completed := some false }
     (by simp [emptyStore])⟩

/-- C3 counterexample: on the empty store, Delete at identifier 0 (which
matches no stored record) answers 204 with an empty body, which is not the
generic 500 server-error response. -/
theorem c3_counterexample :
    (deleteTask emptyStore (.valid 0)).1 = { status := 204, body := .empty } ∧
    (deleteTask emptyStore (.valid 0)).1 ≠ serverError :=
  ⟨rfl, by decide⟩

/-- C3 amended: Delete on a well-formed identifier that matches no stored
record does not crash the service: it answers 204 with an empty body and
leaves the store unchanged, which is not the generic server-error
response; the delete route produces the generic server error only when the
identifier fails ObjectId casting. -/
theorem c3_delete_notfound_not_error (s : Store) (i : Nat)
    (h : ∀ t ∈ s.tasks, t.id ≠ i) :
    deleteTask s (.valid i) = ({ status := 204, body := .empty }, s) ∧
    (deleteTask s (.valid i)).1 ≠ serverError ∧
    deleteTask s .malformed = (serverError, s) := by
  have h204 : deleteTask s (.valid i) = ({ status := 204, body := .empty }, s) := by
    simp [deleteTask, Store.findByIdAndDelete, removeFirst_of_no_match s.tasks i h]
  have hne : ({ status := 204, body := RespBody.empty } : Response) ≠ serverError := by
    decide
  refine ⟨h204, by rw [h204]; exact hne, rfl⟩

theorem c3_delete_notfound_not_error_witness :
    (∀ t ∈ emptyStore.tasks, t.id ≠ 5) ∧
    (deleteTask emptyStore (.valid 5) = ({ status := 204, body := .empty }, emptyStore) ∧
     (deleteTask emptyStore (.valid 5)).1 ≠ serverError ∧
     deleteTask emptyStore .malformed = (serverError, emptyStore)) :=
  ⟨by simp [emptyStore],
   c3_delete_notfound_not_error emptyStore 5 (by simp [emptyStore])⟩

/-- C6: applying Update(id, true) twice in succession leaves the store in
the same state as applying it once, for every store and every path
parameter, well-formed or not. -/
theorem c6_update_idempotent (s : Store) (p : ParamId) :
    (putTask (putTask s p { completed := some true }).2 p
        { completed := some true }).2
      = (putTask s p { completed := some true }).2 := by
  cases p with
  | malformed => rfl
  | valid i =>
      rcases hfind : s.tasks.find? (fun t => t.id = i) with _ | t
      · simp [putTask, Store.findByIdAndUpdate, hfind]
      · have h1 : (putTask s (.valid i) { completed := some true }).2
            = { s with tasks := updateFirst s.tasks i (applyCompleted (some true)) } := by
          simp [putTask, Store.findByIdAndUpdate, hfind]
        rw [h1]
        have h2 : (updateFirst s.tasks i (applyCompleted (some true))).find?
              (fun t => t.id = i) = some (applyCompleted (some true) t) := by
          rw [find?_updateFirst, hfind]; rfl
        simp [putTask, Store.findByIdAndUpdate, h2, updateFirst_idem]

/-- C7: the update route reads only the completed field of the request
body and changes at most the completed flags of stored tasks: the
identifier and title of every stored task are unchanged pointwise, the
fresh counter is unchanged, and the whole handler result depends on the
body only through its completed field, so a title or any extra field in
the body is ignored and the update can never modify a title. -/
theorem c7_update_frame (s : Store) (p : ParamId) (b : ReqBody) :
    ((putTask s p b).2).tasks.map (fun t => (t.id, t.title))
        = s.tasks.map (fun t => (t.id, t.title)) ∧
    ((putTask s p b).2).nextId = s.nextId ∧
    putTask s p b = putTask s p { completed := b.completed } := by
  refine ⟨?_, ?_, rfl⟩ <;> cases p with
  | malformed => rfl
  | valid i =>
      rcases hfind : s.tasks.find? (fun t => t.id = i) with _ | t <;>
        simp [putTask, Store.findByIdAndUpdate, hfind, updateFirst_pairs]

/-- C1: for every valid (non-empty) title and every well-formed store,
Create followed by List yields exactly the prior collection plus one new
task, carrying the given title with completed false and an identifier not
present in the prior collection. -/
theorem c1_create_then_list (s : Store) (t : String) (ht : t ≠ "") (hwf : s.WF) :
    ∃ task : Task, ∃ s2 : Store,
      postTasks s { title := some t }
          = ({ status := 201, body := .taskJson task }, s2) ∧
      (getTasks s2).1
          = { status := 200, body := .listJson (s.tasks ++ [task]) } ∧
      task.title = t ∧ task.completed = false ∧
      task.id ∉ s.tasks.map Task.id := by
  refine ⟨{ id := s.nextId, title := t, completed := false },
    { tasks := s.tasks ++ [{ id := s.nextId, title := t, completed := false }],
      nextId := s.nextId + 1 }, ?_, rfl, rfl, rfl, ?_⟩
  · simp [postTasks, Store.save, ht]
  · intro hmem
    rcases List.mem_map.mp hmem with ⟨u, hu, hid⟩
    have h1 := (hwf.2 u hu).1
    have h2 : u.id = s.nextId := hid
    omega

theorem c1_create_then_list_witness :
    milkTitle ≠ "" ∧ emptyStore.WF ∧
    (∃ task : Task, ∃ s2 : Store,
      postTasks emptyStore { title := some milkTitle }
          = ({ status := 201, body := .taskJson task }, s2) ∧
      (getTasks s2).1
          = { status := 200, body := .listJson (emptyStore.tasks ++ [task]) } ∧
      task.title = milkTitle ∧ task.completed = false ∧
      task.id ∉ emptyStore.tasks.map Task.id) :=
  ⟨by decide, emptyStore_wf,
   c1_create_then_list emptyStore milkTitle (by decide) emptyStore_wf⟩

/-- C4: for a well-formed store and the identifier of a stored task,
Update(id, c) followed by List yields the updated collection, which still
contains a task with that identifier, and every task in it carrying that
identifier has completed equal to c; instantiating c with true and with
false gives the claimed pair of statements. -/
theorem c4_update_then_list (s : Store) (i : Nat) (c : Bool) (hwf : s.WF)
    (hmem : ∃ tk ∈ s.tasks, tk.id = i) :
    (getTasks (putTask s (.valid i) { completed := some c }).2).1
        = { status := 200,
            body := .listJson (putTask s (.valid i) { completed := some c }).2.tasks } ∧
    (∃ u ∈ (putTask s (.valid i) { completed := some c }).2.tasks, u.id = i) ∧
    ∀ u ∈ (putTask s (.valid i) { completed := some c }).2.tasks,
      u.id = i → u.completed = c := by
  rcases hmem with ⟨tk, htk, hid⟩
  rcases hf : s.tasks.find? (fun t => t.id = i) with _ | t0
  · exfalso
    have := List.find?_eq_none.mp hf tk htk
    simp [hid] at this
  · have h2 : (putTask s (.valid i) { completed := some c }).2
        = { s with tasks := updateFirst s.tasks i (applyCompleted (some c)) } := by
      simp [putTask, Store.findByIdAndUpdate, hf]
    rw [h2]
    refine ⟨rfl, ?_, ?_⟩
    · have hin : i ∈ (updateFirst s.tasks i (applyCompleted (some c))).map Task.id := by
        rw [updateFirst_map_id]
        exact hid ▸ List.mem_map_of_mem Task.id htk
      rcases List.mem_map.mp hin with ⟨u, hu, hui⟩
      exact ⟨u, hu, hui⟩
    · exact updateFirst_completed_of_nodup s.tasks i c hwf.1

theorem c4_update_then_list_witness :
    oneTaskStore.WF ∧ (∃ tk ∈ oneTaskStore.tasks, tk.id = 0) ∧
    ((getTasks (putTask oneTaskStore (.valid 0) { completed := some true }).2).1
        = { status := 200,
            body := .listJson
              (putTask oneTaskStore (.valid 0) { completed := some true }).2.tasks } ∧
     (∃ u ∈ (putTask oneTaskStore (.valid 0) { completed := some true }).2.tasks,
        u.id = 0) ∧
     ∀ u ∈ (putTask oneTaskStore (.valid 0) { completed := some true }).2.tasks,
       u.id = 0 → u.completed = true) :=
  ⟨oneTaskStore_wf,
   ⟨{ id := 0, title := milkTitle, completed := false }, by simp [oneTaskStore], rfl⟩,
   c4_update_then_list oneTaskStore 0 true oneTaskStore_wf
     ⟨{ id := 0, title := milkTitle, completed := false }, by simp [oneTaskStore], rfl⟩⟩

/-- C5: for a well-formed store, Delete(id) followed by List yields the
remaining collection, and no task in it carries the deleted identifier. -/
theorem c5_delete_then_list (s : Store) (i : Nat) (hwf : s.WF) :
    (getTasks (deleteTask s (.valid i)).2).1
        = { status := 200, body := .listJson (deleteTask s (.valid i)).2.tasks } ∧
    ∀ u ∈ (deleteTask s (.valid i)).2.tasks, u.id ≠ i := by
  refine ⟨rfl, ?_⟩
  show ∀ u ∈ removeFirst s.tasks i, u.id ≠ i
  exact removeFirst_not_mem s.tasks i hwf.1

theorem c5_delete_then_list_witness :
    oneTaskStore.WF ∧
    ((getTasks (deleteTask oneTaskStore (.valid 0)).2).1
        = { status := 200,
            body := .listJson (deleteTask oneTaskStore (.valid 0)).2.tasks } ∧
     ∀ u ∈ (deleteTask oneTaskStore (.valid 0)).2.tasks, u.id ≠ 0) :=
  ⟨oneTaskStore_wf, c5_delete_then_list oneTaskStore 0 oneTaskStore_wf⟩

/-- C8: POST with a valid title on a well-formed store answers 201 with
the stored task, which carries a fresh identifier, the given title and
completed false; that identifier is usable immediately: Update at it
answers 200 with the task completed set, and Delete at it answers 204 and
removes the task from the collection. -/
theorem c8_create_roundtrip (s : Store) (t : String) (ht : t ≠ "") (hwf : s.WF) :
    ∃ task : Task, ∃ s2 : Store,
      postTasks s { title := some t }
          = ({ status := 201, body := .taskJson task }, s2) ∧
      task.title = t ∧ task.completed = false ∧
      task.id ∉ s.tasks.map Task.id ∧
      (putTask s2 (.valid task.id) { completed := some true }).1
          = { status := 200, body := .taskJson { task with completed := true } } ∧
      (deleteTask s2 (.valid task.id)).1 = { status := 204, body := .empty } ∧
      ∀ u ∈ (deleteTask s2 (.valid task.id)).2.tasks, u.id ≠ task.id := by
  have hno : ∀ u ∈ s.tasks, u.id ≠ s.nextId :=
    fun u hu => Nat.ne_of_lt (hwf.2 u hu).1
  have hfindold : s.tasks.find? (fun x => x.id = s.nextId) = none :=
    find?_of_no_match s s.nextId hno
  refine ⟨{ id := s.nextId, title := t, completed := false },
    { tasks := s.tasks ++ [{ id := s.nextId, title := t, completed := false }],
      nextId := s.nextId + 1 }, ?_, rfl, rfl, ?_, ?_, rfl, ?_⟩
  · simp [postTasks, Store.save, ht]
  · intro hmem
    rcases List.mem_map.mp hmem with ⟨u, hu, hid⟩
    have h1 := (hwf.2 u hu).1
    have h2 : u.id = s.nextId := hid
    omega
  · simp [putTask, Store.findByIdAndUpdate, hfindold, applyCompleted, List.find?]
  · show ∀ u ∈ removeFirst
        (s.tasks ++ [{ id := s.nextId, title := t, completed := false }]) s.nextId,
      u.id ≠ s.nextId
    rw [removeFirst_append_no_match s.tasks _ s.nextId hno]
    intro u hu
    rcases List.mem_append.mp hu with hu2 | hu2
    · exact hno u hu2
    · simp [removeFirst] at hu2

theorem c8_create_roundtrip_witness :
    milkTitle ≠ "" ∧ emptyStore.WF ∧
    (∃ task : Task, ∃ s2 : Store,
      postTasks emptyStore { title := some milkTitle }
          = ({ status := 201, body := .taskJson task }, s2) ∧
      task.title = milkTitle ∧ task.completed = false ∧
      task.id ∉ emptyStore.tasks.map Task.id ∧
      (putTask s2 (.valid task.id) { completed := some true }).1
          = { status := 200, body := .taskJson { task with completed := true } } ∧
      (deleteTask s2 (.valid task.id)).1 = { status := 204, body := .empty } ∧
      ∀ u ∈ (deleteTask s2 (.valid task.id)).2.tasks, u.id ≠ task.id) :=
  ⟨by decide, emptyStore_wf,
   c8_create_roundtrip emptyStore milkTitle (by decide) emptyStore_wf⟩

/-- C9: the store invariant — pairwise distinct identifiers, identifiers
below the fresh counter, non-empty titles, completed boolean by typing —
is preserved by each of the four handlers from any well-formed store, and
a create request with a missing or empty title is rejected with the
generic error, leaving the store unchanged; so no operation can produce a
stored task violating the invariant. -/
theorem c9_invariant_preserved (s : Store) (hwf : s.WF) :
    (∀ b : ReqBody, ((postTasks s b).2).WF) ∧
    ((getTasks s).2).WF ∧
    (∀ (p : ParamId) (b : ReqBody), ((putTask s p b).2).WF) ∧
    (∀ p : ParamId, ((deleteTask s p).2).WF) ∧
    (∀ b : ReqBody, (b.title = none ∨ b.title = some "") →
        postTasks s b = (serverError, s)) := by
  refine ⟨?_, hwf, ?_, ?_, ?_⟩
  · intro b
    rcases hb : b.title with _ | t
    · simp only [postTasks, Store.save, hb]
      exact hwf
    · by_cases hte : t = ""
      · simp only [postTasks, Store.save, hb, hte, if_pos rfl]
        exact hwf
      · simp only [postTasks, Store.save, hb, if_neg hte]
        constructor
        · rw [List.map_append]
          refine List.Nodup.append hwf.1 (List.nodup_singleton _) ?_
          intro x hx1 hx2
          simp only [List.map_cons, List.map_nil, List.mem_singleton] at hx2
          rcases List.mem_map.mp (hx2 ▸ hx1) with ⟨u, hu, hid⟩
          have h1 := (hwf.2 u hu).1
          omega
        · intro u hu
          rcases List.mem_append.mp hu with hu2 | hu2
          · have h1 := (hwf.2 u hu2).1
            exact ⟨show u.id < s.nextId + 1 by omega, (hwf.2 u hu2).2⟩
          · simp only [List.mem_singleton] at hu2
            subst hu2
            exact ⟨show s.nextId < s.nextId + 1 from Nat.lt_succ_self _, hte⟩
  · intro p b
    cases p with
    | malformed => exact hwf
    | valid i =>
        rcases hf : s.tasks.find? (fun t => t.id = i) with _ | t0
        · simp only [putTask, Store.findByIdAndUpdate, hf]
          exact hwf
        · simp only [putTask, Store.findByIdAndUpdate, hf]
          constructor
          · rw [updateFirst_map_id]
            exact hwf.1
          · intro u hu
            rcases mem_updateFirst_pairs s.tasks i b.completed u hu with
              ⟨v, hv, hvid, hvtitle⟩
            have := hwf.2 v hv
            exact ⟨hvid ▸ this.1, hvtitle ▸ this.2⟩
  · intro p
    cases p with
    | malformed => exact hwf
    | valid i =>
        constructor
        · exact ((removeFirst_sublist s.tasks i).map Task.id).nodup hwf.1
        · intro u hu
          exact hwf.2 u ((removeFirst_sublist s.tasks i).subset hu)
  · intro b hb
    rcases hb with hb | hb <;> simp [postTasks, Store.save, hb]

theorem c9_invariant_preserved_witness :
    oneTaskStore.WF ∧
    ((∀ b : ReqBody, ((postTasks oneTaskStore b).2).WF) ∧
     ((getTasks oneTaskStore).2).WF ∧
     (∀ (p : ParamId) (b : ReqBody), ((putTask oneTaskStore p b).2).WF) ∧
     (∀ p : ParamId, ((deleteTask oneTaskStore p).2).WF) ∧
     (∀ b : ReqBody, (b.title = none ∨ b.title = some "") →
        postTasks oneTaskStore b = (serverError, oneTaskStore))) :=
  ⟨oneTaskStore_wf, c9_invariant_preserved oneTaskStore oneTaskStore_wf⟩

end TodoApp
